import Mathlib

/-!
Verification development for the `graphql-api-koa` middleware pair
(`src/execute.mjs` and `src/index.mjs`): the GraphQL execution pipeline and
the error-normalizing handler are embedded as pure Lean functions over an
explicit request/response state, with the external GraphQL engine
(`parse` / `validate` / `validateSchema` / `execute`) abstracted as an
oracle record, mirroring the repository's use of the `graphql` package as a
black box.
-/

/-- A GraphQL-shaped error as produced by the engine (message plus opaque
location payload, standing in for `locations` / `path`). -/
structure GraphQLError where
  message : String
  loc : Option Nat
deriving DecidableEq, Repr

/-- The standard GraphQL formatted-error shape written into response bodies. -/
structure FormattedError where
  message : String
  loc : Option Nat
deriving DecidableEq, Repr

/-- The engine's `formatError`: keeps the message and location payload. -/
def formatError (e : GraphQLError) : FormattedError :=
  ⟨e.message, e.loc⟩

/-- A structured HTTP error as produced by `http-errors` `createError`:
status, message, whether the message may reach the client, and the optional
`graphqlErrors` list attached at the failure site. -/
structure HttpError where
  status : Nat
  message : String
  expose : Bool
  graphqlErrors : Option (List GraphQLError)
deriving DecidableEq, Repr

/-- `createError(status, message, { graphqlErrors })` from the `http-errors`
dependency: a fresh error's `expose` flag is `status < 500`.  The one-argument
message-only form used for configuration errors is `createHttpError 500 m none`
(`http-errors` defaults the status to 500, hence not exposed). -/
def createHttpError (status : Nat) (message : String)
    (graphqlErrors : Option (List GraphQLError)) : HttpError :=
  ⟨status, message, decide (status < 500), graphqlErrors⟩

/-- A JavaScript value in an options slot: absent-or-`undefined`, a
`GraphQLSchema` instance (identified by an opaque id), a function value, or
some other defined value. -/
inductive JsValue where
  | undefinedV
  | schemaInst (s : Nat)
  | fnVal (f : Nat)
  | plain (v : Nat)
deriving DecidableEq, Repr

/-- JavaScript truthiness restricted to what the middleware tests: a function
value is truthy, `undefined` is falsy. -/
def JsValue.isFn : JsValue → Bool
  | .fnVal _ => true
  | _ => false

/-- An enumerable JavaScript object, as a key-ordered association list.  A key
present with value `undefined` is a real entry (`JsValue.undefinedV`), distinct from
an absent key — the distinction `Object.keys` / spread / `typeof` semantics
need. -/
abbrev OptionsObject := List (String × JsValue)

/-- Whether the object has the key (`key in obj` / spread-presence). -/
def hasKey (o : OptionsObject) (k : String) : Bool :=
  o.any (fun p => p.1 == k)

/-- Property read `obj[k]`: `undefined` when the key is absent, so
`typeof obj.k === 'undefined'` is exactly `getOpt o k = .undefinedV`. -/
def getOpt (o : OptionsObject) (k : String) : JsValue :=
  match o.find? (fun p => p.1 == k) with
  | some p => p.2
  | none => .undefinedV

/-- `Object.keys(obj)` in insertion order. -/
def objKeys (o : OptionsObject) : List String :=
  o.map Prod.fst

/-- The keys of `o` falling outside `allowed`, in insertion order — the
`invalid` list computed by `checkOptions` (src/index.mjs lines 260-262). -/
def invalidKeys (o : OptionsObject) (allowed : List String) : List String :=
  (objKeys o).filter (fun k => !(allowed.contains k))

/-- Object spread `{...a, ...b}` restricted to lookup/key-set semantics: keys
of `b` win over keys of `a`, including keys `b` defines as `undefined`; every
key of either object is present in the result. -/
def spreadMerge (a b : OptionsObject) : OptionsObject :=
  b ++ a.filter (fun p => !(hasKey b p.1))

/-- `ALLOWED_EXECUTE_OPTIONS` (src/execute.mjs lines 15-21, identical to
`ALLOWED_OPTIONS` in src/index.mjs lines 144-150). -/
def ALLOWED_EXECUTE_OPTIONS : List String :=
  ["schema", "rootValue", "contextValue", "fieldResolver", "override"]

/-- A value handed to `checkOptions`: an enumerable object, or anything else
(`undefined`, `null`, an array, a primitive). -/
inductive OverrideResult where
  | obj (o : OptionsObject)
  | nonObj (v : Nat)
deriving DecidableEq, Repr

/-- The non-exposed configuration error `checkOptions` raises for a value that
is not an enumerable object. -/
def enumerableObjectError (description : String) : HttpError :=
  createHttpError 500 (description ++ " options must be an enumerable object.") none

/-- The non-exposed configuration error `checkOptions` raises when keys fall
outside the allow-list, naming every offending key
(src/index.mjs lines 264-267). -/
def invalidOptionsError (description : String) (invalid : List String) : HttpError :=
  createHttpError 500
    (description ++ " options invalid: `" ++ String.intercalate "`, `" invalid ++ "`.")
    none

/-- Modelled from the spec: the `checkOptions` helper module imported by
src/execute.mjs is not present under src/.  Per spec section 4.1 it fails with
a non-exposed configuration error when the value is not an enumerable object,
and otherwise when any key falls outside `allowed`, naming every offending
key; the key check matches the inline `checkOptions` of src/index.mjs
(lines 259-268). -/
def checkOptions (options : OverrideResult) (allowed : List String)
    (description : String) : Except HttpError Unit :=
  match options with
  | .nonObj _ => .error (enumerableObjectError description)
  | .obj o =>
    let invalid := invalidKeys o allowed
    if invalid = [] then .ok ()
    else .error (invalidOptionsError description invalid)

/-- Arguments the middleware passes to the engine's execution primitive
(src/execute.mjs lines 106-114). -/
structure ExecArgs where
  schema : JsValue
  rootValue : JsValue
  contextValue : JsValue
  fieldResolver : JsValue
  document : Nat
  variableValues : Option Nat
  operationName : Option String
deriving DecidableEq, Repr

/-- The executor's `data` field value: JavaScript `null` (falsy) or an object
(truthy), as tested by `if (result.data)` on src/execute.mjs line 122. -/
inductive DataValue where
  | nullV
  | objV (d : Nat)
deriving DecidableEq, Repr

/-- An execution result `{data?, errors?}`; `none` means the key is absent. -/
structure ExecResult where
  data : Option DataValue
  errors : Option (List GraphQLError)
deriving DecidableEq, Repr

/-- The external GraphQL engine, abstracted at the interface the middleware
uses: `parse` (document id or syntax-error message), `validateSchema`,
`validate` (against whatever value sits in the `schema` slot), and the default
execution primitive, which may throw (error message) or return a result. -/
structure Engine where
  parse : String → Except String Nat
  validateSchema : Nat → List GraphQLError
  validate : JsValue → Nat → List GraphQLError
  exec : ExecArgs → Except String ExecResult

/-- Modelled from the spec: the `checkSchema` helper module imported by
src/execute.mjs is not present under src/; it matches the inline `checkSchema`
of src/index.mjs (lines 277-288): fail unless the value is a `GraphQLSchema`
instance, then fail carrying every structural validation error. -/
def checkSchema (engine : Engine) (v : JsValue) : Except HttpError Unit :=
  match v with
  | .schemaInst s =>
    let schemaValidationErrors := engine.validateSchema s
    if schemaValidationErrors = [] then .ok ()
    else .error (createHttpError 500 "GraphQL schema validation errors."
      (some schemaValidationErrors))
  | _ => .error (createHttpError 500
      "GraphQL schema is required and must be a `GraphQLSchema` instance." none)

/-- The argument of the `execute` middleware factory: `undefined`, an
enumerable object, or another value. -/
inductive JsArg where
  | undefArg
  | objArg (o : OptionsObject)
  | nonObjArg (v : Nat)
deriving DecidableEq, Repr

/-- What setup retains: the static options (everything except `override`,
from the rest-destructuring on src/execute.mjs line 52) and the `override`
value itself. -/
structure SetupResult where
  staticOptions : OptionsObject
  override : JsValue
deriving DecidableEq, Repr

/-- Setup-time body of the `execute` middleware factory
(src/execute.mjs lines 44-57). -/
def executeSetup (engine : Engine) (options : JsArg) :
    Except HttpError SetupResult := do
  match options with
  | .undefArg =>
    throw (createHttpError 500 "GraphQL execute middleware options missing." none)
  | .nonObjArg v => do
    checkOptions (.nonObj v) ALLOWED_EXECUTE_OPTIONS "GraphQL execute middleware"
    pure ⟨[], .undefinedV⟩
  | .objArg o => do
    checkOptions (.obj o) ALLOWED_EXECUTE_OPTIONS "GraphQL execute middleware"
    if getOpt o "schema" ≠ JsValue.undefinedV then
      checkSchema engine (getOpt o "schema")
    else
      pure ()
    let override := getOpt o "override"
    let staticOptions := o.filter (fun p => p.1 != "override")
    match override with
    | .undefinedV => pure ⟨staticOptions, override⟩
    | .fnVal _ => pure ⟨staticOptions, override⟩
    | _ => throw (createHttpError 500
        "GraphQL execute middleware `override` option must be a function." none)

/-- The parsed request body's GraphQL fields: whether `query` is a key, its
source text, and the `variables` / `operationName` fields. -/
structure RequestBody where
  queryPresent : Bool
  query : String
  bodyVariables : Option Nat
  operationName : Option String
deriving DecidableEq, Repr

/-- `ctx.request.body` as left by the body-parsing collaborator: absent, a
non-object value, or an enumerable object. -/
inductive ReqBody where
  | missing
  | nonObj (v : Nat)
  | obj (b : RequestBody)
deriving DecidableEq, Repr

/-- The per-request environment: the parsed body and the value the `override`
function resolves to when invoked with this request's context. -/
structure RequestEnv where
  body : ReqBody
  overrideResult : OverrideResult
deriving DecidableEq, Repr

/-- `ctx.response.body` once assigned: optional `data` and `errors` fields. -/
structure ResponseBody where
  data : Option DataValue
  errors : Option (List FormattedError)
deriving DecidableEq, Repr

/-- `ctx.response` state: status plus the body (`none` before assignment,
matching Koa's initially unset body and default 404 status). -/
structure ResponseState where
  status : Nat
  body : Option ResponseBody
deriving DecidableEq, Repr

/-- A value thrown down the middleware chain: a structured `http-errors`
error, or any other thrown value (plain error or raw value) carrying only a
message. -/
inductive Thrown where
  | http (e : HttpError)
  | raw (message : String)
deriving DecidableEq, Repr

/-- The `expose` flag of a thrown value: only a structured error can carry
`expose === true`. -/
def thrownExpose : Thrown → Bool
  | .http e => e.expose
  | .raw _ => false

/-- The original message of a thrown value. -/
def thrownMessage : Thrown → String
  | .http e => e.message
  | .raw m => m

/-- The outcome of running the `execute` middleware on one request: the
response state it left, what it threw (if anything), and instrumentation
recording each pipeline step it reached (the override invocation, the parsed
document, the merged per-request options, the validation-error list, the
execution arguments and result, and whether `next` ran). -/
structure RunResult where
  resp : ResponseState
  thrown : Option Thrown
  overrideInvoked : Bool
  parsedDocument : Option Nat
  mergedOptions : Option OptionsObject
  validationErrors : Option (List GraphQLError)
  execArgs : Option ExecArgs
  execResult : Option ExecResult
  nextCalled : Bool
deriving DecidableEq, Repr

/-- Koa's response state before the middleware runs: status 404, no body. -/
def initialResponse : ResponseState :=
  ⟨404, none⟩

/-- A run that has recorded nothing yet. -/
def baseRun : RunResult :=
  ⟨initialResponse, none, false, none, none, none, none, none, false⟩

/-- A run ending by throwing the structured error `e`. -/
def throwRun (r : RunResult) (e : HttpError) : RunResult :=
  { r with thrown := some (.http e) }

/-- The run state after parsing succeeded: document recorded, and whether the
override branch was entered. -/
def preRun (document : Nat) (inv : Bool) : RunResult :=
  { baseRun with parsedDocument := some document, overrideInvoked := inv }

/-- The `contextLabel` used for the override's resolved options
(src/execute.mjs line 85). -/
def overrideResolvedLabel : String :=
  "GraphQL execute middleware `override` option resolved"

/-- The `ExecArgs` built from the merged per-request options, the parsed
document and the body (src/execute.mjs lines 106-114). -/
def mkExecArgs (requestOptions : OptionsObject) (b : RequestBody)
    (document : Nat) : ExecArgs :=
  ⟨getOpt requestOptions "schema", getOpt requestOptions "rootValue",
   getOpt requestOptions "contextValue", getOpt requestOptions "fieldResolver",
   document, b.bodyVariables, b.operationName⟩

/-- src/execute.mjs lines 92-131: merge static and override options, require a
schema, validate the document, execute it, write `{ data }` for a truthy
`data`, throw an exposed 200 error when the result carries `errors`, else
finish with status 200 and continue the chain. -/
def mergeStage (engine : Engine) (setup : SetupResult) (b : RequestBody)
    (document : Nat) (r : RunResult) (overrideOptions : OptionsObject) :
    RunResult :=
  let requestOptions := spreadMerge setup.staticOptions overrideOptions
  let r1 := { r with mergedOptions := some requestOptions }
  if getOpt requestOptions "schema" = JsValue.undefinedV then
    throwRun r1 (createHttpError 500 "GraphQL schema is required." none)
  else
    let queryValidationErrors :=
      engine.validate (getOpt requestOptions "schema") document
    let r2 := { r1 with validationErrors := some queryValidationErrors }
    if queryValidationErrors = [] then
      let args := mkExecArgs requestOptions b document
      let r3 := { r2 with execArgs := some args }
      match engine.exec args with
      | .error m =>
        throwRun r3 (createHttpError 400 ("GraphQL operation field invalid: " ++ m) none)
      | .ok result =>
        let r4 := { r3 with execResult := some result }
        let r5 :=
          match result.data with
          | some (.objV d) =>
            { r4 with resp := { r4.resp with body := some ⟨some (.objV d), none⟩ } }
          | _ => r4
        match result.errors with
        | some es =>
          throwRun r5 (createHttpError 200 "GraphQL errors." (some es))
        | none =>
          { r5 with resp := { r5.resp with status := 200 }, nextCalled := true }
    else
      throwRun r2 (createHttpError 400 "GraphQL query validation errors."
        (some queryValidationErrors))

/-- src/execute.mjs lines 77-90: when a static `override` exists, resolve it,
check its result is an enumerable object with keys in the allow-list minus
`override`, and validate an overridden schema immediately.  Setup
(src/execute.mjs lines 54-57) guarantees `override` is `undefined` or a
function, so the `if (override)` truthiness test selects exactly the
function case. -/
def overrideStage (engine : Engine) (setup : SetupResult) (env : RequestEnv)
    (b : RequestBody) (document : Nat) : RunResult :=
  match setup.override with
  | .fnVal _ =>
    let r := preRun document true
    match env.overrideResult with
    | .nonObj _ =>
      throwRun r (enumerableObjectError overrideResolvedLabel)
    | .obj overrideOptions =>
      match checkOptions (.obj overrideOptions)
          (ALLOWED_EXECUTE_OPTIONS.filter (fun o => o != "override"))
          overrideResolvedLabel with
      | .error e => throwRun r e
      | .ok _ =>
        if getOpt overrideOptions "schema" = JsValue.undefinedV then
          mergeStage engine setup b document r overrideOptions
        else
          match checkSchema engine (getOpt overrideOptions "schema") with
          | .error e => throwRun r e
          | .ok _ => mergeStage engine setup b document r overrideOptions
  | _ => mergeStage engine setup b document (preRun document false) []

/-- The per-request middleware returned by `execute`
(src/execute.mjs lines 59-132): body presence/shape checks, the `query`
field check, parsing, then the override and merge/execute stages. -/
def executeMiddleware (engine : Engine) (setup : SetupResult)
    (env : RequestEnv) : RunResult :=
  match env.body with
  | .missing =>
    throwRun baseRun (createHttpError 500 "Request body missing." none)
  | .nonObj _ =>
    throwRun baseRun (createHttpError 400 "Request body must be a JSON object." none)
  | .obj b =>
    if b.queryPresent then
      match engine.parse b.query with
      | .error m =>
        throwRun baseRun
          (createHttpError 400 ("GraphQL query syntax error: " ++ m) none)
      | .ok document => overrideStage engine setup env b document
    else
      throwRun baseRun
        (createHttpError 400 "GraphQL operation field `query` missing." none)

/-- The generic error produced by a bare `createError()`: status 500, message
`Internal Server Error`, not exposed, no attached detail. -/
def internalServerError : HttpError :=
  ⟨500, "Internal Server Error", false, none⟩

/-- Modelled from the spec: the coercion `createError(error)` performed by the
external `http-errors` dependency (src/index.mjs line 92) — per spec section
4.3, an already-structured error passes through and any other thrown value
(plain error, raw value) is coerced to a generic internal error. -/
def coerceToHttpError : Thrown → HttpError
  | .http e => e
  | .raw _ => internalServerError

/-- Formatting a structured HTTP error itself (the single-error branch of
src/index.mjs line 109): its message, with no location payload. -/
def formatHttpError (e : HttpError) : FormattedError :=
  ⟨e.message, none⟩

/-- The `errors` list `errorHandler` writes into the response body
(src/index.mjs lines 105-109): the formatted `graphqlErrors` when an array of
them is attached, else the single formatted error itself. -/
def httpErrorBodyErrors (e : HttpError) : List FormattedError :=
  match e.graphqlErrors with
  | some gs => gs.map formatError
  | none => [formatHttpError e]

/-- The `errorHandler` middleware (src/index.mjs lines 86-114): on a thrown
value, coerce it, replace a non-exposed error with the generic internal error,
set the status, ensure a body object exists (it may already hold `data`), and
set the body's `errors` field. -/
def errorHandler (resp : ResponseState) (thrown : Option Thrown) : ResponseState :=
  match thrown with
  | none => resp
  | some t =>
    let h0 := coerceToHttpError t
    let httpError := if h0.expose then h0 else internalServerError
    let body := resp.body.getD ⟨none, none⟩
    { status := httpError.status
      body := some { body with errors := some (httpErrorBodyErrors httpError) } }

/-- The response the client sees: the `errorHandler` wrapped around the
`execute` middleware, as composed in the repository's documented setup. -/
def finalResponse (engine : Engine) (setup : SetupResult)
    (env : RequestEnv) : ResponseState :=
  let r := executeMiddleware engine setup env
  errorHandler r.resp r.thrown

/-! ## Helper lemmas -/

theorem checkOptions_obj_ok_iff (o : OptionsObject) (allowed : List String)
    (d : String) :
    checkOptions (.obj o) allowed d = .ok () ↔ invalidKeys o allowed = [] := by
  unfold checkOptions
  by_cases h : invalidKeys o allowed = [] <;> simp [h]

theorem hasKey_false_of_invalid_nil (o : OptionsObject) (allowed : List String)
    (k : String) (h : invalidKeys o allowed = [])
    (hk : allowed.contains k = false) : hasKey o k = false := by
  unfold hasKey
  rw [List.any_eq_false]
  intro p hp
  simp only [beq_iff_eq]
  intro hpk
  have hmem : k ∈ objKeys o := by
    unfold objKeys
    exact hpk ▸ List.mem_map_of_mem Prod.fst hp
  have hcontra := (List.filter_eq_nil_iff.mp h) k hmem
  exact absurd hcontra (by simpa using hk)

theorem getOpt_spreadMerge_of_hasKey (a b : OptionsObject) (k : String)
    (h : hasKey b k = true) : getOpt (spreadMerge a b) k = getOpt b k := by
  unfold getOpt spreadMerge
  rw [List.find?_append]
  cases hfb : b.find? (fun p => p.1 == k) with
  | none =>
    obtain ⟨p, hp, hpk⟩ := List.any_eq_true.mp h
    exact absurd hpk (by simpa using List.find?_eq_none.mp hfb p hp)
  | some q => simp

theorem hasKey_spreadMerge_false (a b : OptionsObject) (k : String)
    (ha : hasKey a k = false) (hb : hasKey b k = false) :
    hasKey (spreadMerge a b) k = false := by
  unfold hasKey spreadMerge
  rw [List.any_append]
  unfold hasKey at ha hb
  rw [hb]
  simp only [Bool.false_or]
  rw [List.any_eq_false] at ha ⊢
  intro x hx
  exact ha x (List.mem_of_mem_filter hx)

theorem errorHandler_exposed (resp : ResponseState) (e : HttpError)
    (he : e.expose = true) :
    errorHandler resp (some (.http e)) =
      ⟨e.status, some ⟨(resp.body.getD ⟨none, none⟩).data,
        some (httpErrorBodyErrors e)⟩⟩ := by
  unfold errorHandler coerceToHttpError
  simp [he]

theorem errorHandler_unexposed (resp : ResponseState) (t : Thrown)
    (h : thrownExpose t = false) :
    errorHandler resp (some t) =
      ⟨500, some ⟨(resp.body.getD ⟨none, none⟩).data,
        some [⟨"Internal Server Error", none⟩]⟩⟩ := by
  cases t with
  | http e =>
    have he : e.expose = false := h
    unfold errorHandler coerceToHttpError
    simp [he, internalServerError, httpErrorBodyErrors, formatHttpError]
  | raw m =>
    unfold errorHandler coerceToHttpError
    simp [internalServerError, httpErrorBodyErrors, formatHttpError]

/-- The conditions under which one request reaches the merge/validate/execute
stage: the body is an object carrying `query`, parsing succeeds, and the
override step either does not exist (no override options) or resolves to an
object that passes the key check and (when it defines one) the schema check. -/
def reachesMerge (engine : Engine) (setup : SetupResult) (env : RequestEnv)
    (b : RequestBody) (document : Nat) (ov : OptionsObject) (inv : Bool) : Prop :=
  env.body = .obj b ∧ b.queryPresent = true ∧
  engine.parse b.query = .ok document ∧
  ((setup.override = .undefinedV ∧ ov = [] ∧ inv = false) ∨
   (setup.override.isFn = true ∧ env.overrideResult = .obj ov ∧ inv = true ∧
    checkOptions (.obj ov)
      (ALLOWED_EXECUTE_OPTIONS.filter (fun k => k != "override"))
      overrideResolvedLabel = .ok () ∧
    (getOpt ov "schema" = .undefinedV ∨
     checkSchema engine (getOpt ov "schema") = .ok ())))

theorem run_reaches_merge (engine : Engine) (setup : SetupResult)
    (env : RequestEnv) (b : RequestBody) (document : Nat) (ov : OptionsObject)
    (inv : Bool) (h : reachesMerge engine setup env b document ov inv) :
    executeMiddleware engine setup env =
      mergeStage engine setup b document (preRun document inv) ov := by
  obtain ⟨hb, hq, hp, hrest⟩ := h
  unfold executeMiddleware
  rw [hb]
  simp only [hq, if_true, hp]
  unfold overrideStage
  rcases hrest with ⟨ho, hov, hinv⟩ | ⟨hfn, hres, hinv, hchk, hsch⟩
  · subst hov hinv
    simp only [ho]
  · subst hinv
    cases hover : setup.override with
    | fnVal f =>
      simp only [hres, hchk]
      by_cases hu : getOpt ov "schema" = JsValue.undefinedV
      · simp only [hu, if_true]
      · rw [if_neg hu]
        rcases hsch with h1 | h2
        · exact absurd h1 hu
        · simp only [h2]
    | undefinedV => rw [hover] at hfn; simp [JsValue.isFn] at hfn
    | schemaInst s => rw [hover] at hfn; simp [JsValue.isFn] at hfn
    | plain v => rw [hover] at hfn; simp [JsValue.isFn] at hfn

theorem finalResponse_of_thrown_exposed (engine : Engine) (setup : SetupResult)
    (env : RequestEnv) (e : HttpError)
    (hth : (executeMiddleware engine setup env).thrown = some (.http e))
    (he : e.expose = true) :
    finalResponse engine setup env =
      ⟨e.status,
       some ⟨(((executeMiddleware engine setup env).resp.body).getD ⟨none, none⟩).data,
             some (httpErrorBodyErrors e)⟩⟩ := by
  show errorHandler (executeMiddleware engine setup env).resp
    (executeMiddleware engine setup env).thrown = _
  rw [hth]
  exact errorHandler_exposed _ e he

theorem finalResponse_of_thrown_unexposed (engine : Engine) (setup : SetupResult)
    (env : RequestEnv) (t : Thrown)
    (hth : (executeMiddleware engine setup env).thrown = some t)
    (he : thrownExpose t = false) :
    finalResponse engine setup env =
      ⟨500,
       some ⟨(((executeMiddleware engine setup env).resp.body).getD ⟨none, none⟩).data,
             some [⟨"Internal Server Error", none⟩]⟩⟩ := by
  show errorHandler (executeMiddleware engine setup env).resp
    (executeMiddleware engine setup env).thrown = _
  rw [hth]
  exact errorHandler_unexposed _ t he

/-! ## Claim theorems -/

/-- C1: every error thrown by the downstream chain whose expose flag is not
true is replaced by the errorHandler middleware with a generic error: the
response status becomes 500, the body's errors field holds exactly one
formatted error whose message is exactly "Internal Server Error" (any
graphqlErrors detail of the original error is dropped), and the original
message never appears among the response body's error messages. -/
theorem c1_unexposed_error_masked (resp : ResponseState) (t : Thrown)
    (h : thrownExpose t ≠ true) :
    (errorHandler resp (some t)).status = 500 ∧
    ((errorHandler resp (some t)).body.getD ⟨none, none⟩).errors =
      some [⟨"Internal Server Error", none⟩] ∧
    (thrownMessage t ≠ "Internal Server Error" →
      ∀ fe ∈ (((errorHandler resp (some t)).body.getD ⟨none, none⟩).errors.getD []),
        fe.message ≠ thrownMessage t) := by
  have hf : thrownExpose t = false := by
    cases hx : thrownExpose t
    · rfl
    · exact absurd hx h
  rw [errorHandler_unexposed resp t hf]
  refine ⟨rfl, rfl, ?_⟩
  intro hm fe hfe
  simp only [Option.getD_some, List.mem_singleton] at hfe
  rw [hfe]
  exact fun hh => hm hh.symm

def c1Thrown : Thrown :=
  .http ⟨418, "secret detail", false, some [⟨"hidden graphql detail", none⟩]⟩

theorem c1_witness :
    thrownExpose c1Thrown ≠ true ∧
    (errorHandler ⟨404, none⟩ (some c1Thrown)).status = 500 ∧
    ((errorHandler ⟨404, none⟩ (some c1Thrown)).body.getD ⟨none, none⟩).errors =
      some [⟨"Internal Server Error", none⟩] :=
  ⟨by decide, (c1_unexposed_error_masked ⟨404, none⟩ c1Thrown (by decide)).1,
   (c1_unexposed_error_masked ⟨404, none⟩ c1Thrown (by decide)).2.1⟩

/-- C4: for every request whose parsed document yields a non-empty list `es`
of validation errors against the effective schema, the request fails with an
exposed status-400 error carrying the full ordered list `es` as
`graphqlErrors`, execution is never attempted, and the response body's errors
field is exactly `es` formatted, in order and untruncated (same length). -/
theorem c4_validation_errors_fully_reported (engine : Engine)
    (setup : SetupResult) (env : RequestEnv) (b : RequestBody) (document : Nat)
    (ov : OptionsObject) (inv : Bool) (es : List GraphQLError)
    (hreach : reachesMerge engine setup env b document ov inv)
    (hschema : getOpt (spreadMerge setup.staticOptions ov) "schema" ≠ JsValue.undefinedV)
    (hvalid : engine.validate (getOpt (spreadMerge setup.staticOptions ov) "schema")
      document = es)
    (hne : es ≠ []) :
    (executeMiddleware engine setup env).thrown =
      some (.http ⟨400, "GraphQL query validation errors.", true, some es⟩) ∧
    (executeMiddleware engine setup env).execArgs = none ∧
    (finalResponse engine setup env).status = 400 ∧
    ((finalResponse engine setup env).body.getD ⟨none, none⟩).errors =
      some (es.map formatError) ∧
    (es.map formatError).length = es.length := by
  have hmid : executeMiddleware engine setup env =
      throwRun
        { preRun document inv with
            mergedOptions := some (spreadMerge setup.staticOptions ov),
            validationErrors := some es }
        (createHttpError 400 "GraphQL query validation errors." (some es)) := by
    rw [run_reaches_merge engine setup env b document ov inv hreach]
    unfold mergeStage
    rw [if_neg hschema]
    simp only [hvalid]
    rw [if_neg hne]
  have hth : (executeMiddleware engine setup env).thrown =
      some (.http (createHttpError 400 "GraphQL query validation errors." (some es))) := by
    rw [hmid]; rfl
  have hfin := finalResponse_of_thrown_exposed engine setup env _ hth (by rfl)
  rw [hmid] at hfin
  refine ⟨?_, ?_, ?_, ?_, by simp⟩
  · rw [hmid]; rfl
  · rw [hmid]; rfl
  · rw [hfin]
    rfl
  · rw [hfin]
    rfl

def gErrA : GraphQLError := ⟨"bad field", none⟩

def gErrB : GraphQLError := ⟨"bad argument", some 3⟩

def setupBasic : SetupResult := ⟨[("schema", .schemaInst 0)], .undefinedV⟩

def bodyBasic : RequestBody := ⟨true, "q", none, none⟩

def envBasic : RequestEnv := ⟨.obj bodyBasic, .obj []⟩

def engineValidationFail : Engine :=
  ⟨fun _ => .ok 1, fun _ => [], fun _ _ => [gErrA, gErrB],
   fun _ => .ok ⟨some (.objV 7), none⟩⟩

theorem c4_witness :
    ([gErrA, gErrB] : List GraphQLError) ≠ [] ∧
    (executeMiddleware engineValidationFail setupBasic envBasic).thrown =
      some (.http ⟨400, "GraphQL query validation errors.", true,
        some [gErrA, gErrB]⟩) ∧
    (finalResponse engineValidationFail setupBasic envBasic).status = 400 ∧
    ((finalResponse engineValidationFail setupBasic envBasic).body.getD
        ⟨none, none⟩).errors = some ([gErrA, gErrB].map formatError) := by
  have h := c4_validation_errors_fully_reported engineValidationFail setupBasic
    envBasic bodyBasic 1 [] false [gErrA, gErrB]
    ⟨rfl, rfl, rfl, Or.inl ⟨rfl, rfl, rfl⟩⟩ (by decide) rfl (by decide)
  exact ⟨by decide, h.1, h.2.2.1, h.2.2.2.1⟩

/-- C2: for every request whose execution result carries a non-empty errors
list `es`, the execute middleware throws an exposed status-200 structured
error carrying the complete list `es` as `graphqlErrors`, so the final
response has status 200 (not 500) with the errors field holding every
execution error formatted, and with `data` also present in the body whenever
the execution result carried (truthy) partial data. -/
theorem c2_resolver_errors_reported_with_status_200 (engine : Engine)
    (setup : SetupResult) (env : RequestEnv) (b : RequestBody) (document : Nat)
    (ov : OptionsObject) (inv : Bool) (r : ExecResult) (es : List GraphQLError)
    (hreach : reachesMerge engine setup env b document ov inv)
    (hschema : getOpt (spreadMerge setup.staticOptions ov) "schema" ≠ JsValue.undefinedV)
    (hvalid : engine.validate (getOpt (spreadMerge setup.staticOptions ov) "schema")
      document = [])
    (hexec : engine.exec (mkExecArgs (spreadMerge setup.staticOptions ov) b document)
      = .ok r)
    (herrs : r.errors = some es) (hne : es ≠ []) :
    (executeMiddleware engine setup env).thrown =
      some (.http ⟨200, "GraphQL errors.", true, some es⟩) ∧
    (finalResponse engine setup env).status = 200 ∧
    ((finalResponse engine setup env).body.getD ⟨none, none⟩).errors =
      some (es.map formatError) ∧
    (∀ d, r.data = some (.objV d) →
      ((finalResponse engine setup env).body.getD ⟨none, none⟩).data =
        some (.objV d)) := by
  have hrun := run_reaches_merge engine setup env b document ov inv hreach
  cases hd : r.data with
  | none =>
    have hmid : executeMiddleware engine setup env =
        throwRun
          { preRun document inv with
              mergedOptions := some (spreadMerge setup.staticOptions ov),
              validationErrors := some [],
              execArgs := some (mkExecArgs (spreadMerge setup.staticOptions ov) b document),
              execResult := some r }
          (createHttpError 200 "GraphQL errors." (some es)) := by
      rw [hrun]
      unfold mergeStage
      rw [if_neg hschema]
      simp only [hvalid, hexec, hd, herrs, if_true]
    have hth : (executeMiddleware engine setup env).thrown =
        some (.http (createHttpError 200 "GraphQL errors." (some es))) := by
      rw [hmid]; rfl
    have hfin := finalResponse_of_thrown_exposed engine setup env _ hth (by rfl)
    rw [hmid] at hfin
    refine ⟨by rw [hmid]; rfl, by rw [hfin]; rfl, by rw [hfin]; rfl, ?_⟩
    intro d hdd
    exact absurd hdd (by simp)
  | some dv =>
    cases dv with
    | nullV =>
      have hmid : executeMiddleware engine setup env =
          throwRun
            { preRun document inv with
                mergedOptions := some (spreadMerge setup.staticOptions ov),
                validationErrors := some [],
                execArgs := some (mkExecArgs (spreadMerge setup.staticOptions ov) b document),
                execResult := some r }
            (createHttpError 200 "GraphQL errors." (some es)) := by
        rw [hrun]
        unfold mergeStage
        rw [if_neg hschema]
        simp only [hvalid, hexec, hd, herrs, if_true]
      have hth : (executeMiddleware engine setup env).thrown =
          some (.http (createHttpError 200 "GraphQL errors." (some es))) := by
        rw [hmid]; rfl
      have hfin := finalResponse_of_thrown_exposed engine setup env _ hth (by rfl)
      rw [hmid] at hfin
      refine ⟨by rw [hmid]; rfl, by rw [hfin]; rfl, by rw [hfin]; rfl, ?_⟩
      intro d hdd
      exact absurd hdd (by simp)
    | objV d0 =>
      have hmid : executeMiddleware engine setup env =
          throwRun
            { preRun document inv with
                resp := { initialResponse with body := some ⟨some (.objV d0), none⟩ },
                mergedOptions := some (spreadMerge setup.staticOptions ov),
                validationErrors := some [],
                execArgs := some (mkExecArgs (spreadMerge setup.staticOptions ov) b document),
                execResult := some r }
            (createHttpError 200 "GraphQL errors." (some es)) := by
        rw [hrun]
        unfold mergeStage
        rw [if_neg hschema]
        simp only [hvalid, hexec, hd, herrs, if_true]
        rfl
      have hth : (executeMiddleware engine setup env).thrown =
          some (.http (createHttpError 200 "GraphQL errors." (some es))) := by
        rw [hmid]; rfl
      have hfin := finalResponse_of_thrown_exposed engine setup env _ hth (by rfl)
      rw [hmid] at hfin
      refine ⟨by rw [hmid]; rfl, by rw [hfin]; rfl, by rw [hfin]; rfl, ?_⟩
      intro d hdd
      simp only [Option.some.injEq, DataValue.objV.injEq] at hdd
      subst hdd
      rw [hfin]
      rfl

def engineResolverErrors : Engine :=
  ⟨fun _ => .ok 1, fun _ => [], fun _ _ => [],
   fun _ => .ok ⟨some (.objV 7), some [gErrA]⟩⟩

theorem c2_witness :
    (executeMiddleware engineResolverErrors setupBasic envBasic).thrown =
      some (.http ⟨200, "GraphQL errors.", true, some [gErrA]⟩) ∧
    (finalResponse engineResolverErrors setupBasic envBasic).status = 200 ∧
    ((finalResponse engineResolverErrors setupBasic envBasic).body.getD
        ⟨none, none⟩).errors = some ([gErrA].map formatError) ∧
    ((finalResponse engineResolverErrors setupBasic envBasic).body.getD
        ⟨none, none⟩).data = some (.objV 7) := by
  have h := c2_resolver_errors_reported_with_status_200 engineResolverErrors
    setupBasic envBasic bodyBasic 1 [] false ⟨some (.objV 7), some [gErrA]⟩ [gErrA]
    ⟨rfl, rfl, rfl, Or.inl ⟨rfl, rfl, rfl⟩⟩ (by decide) rfl rfl rfl (by decide)
  exact ⟨h.1, h.2.1, h.2.2.1, h.2.2.2 7 rfl⟩

def engineTrivial : Engine :=
  ⟨fun _ => .ok 1, fun _ => [], fun _ _ => [],
   fun _ => .ok ⟨some (.objV 7), none⟩⟩

def c3Options : OptionsObject :=
  [("schema", .schemaInst 0), ("executeFn", .fnVal 4)]

/-- The allowed option set the claim asserts, including the `executeFn` and
`validationRules` keys the spec describes. -/
def claimedAllowedOptions : List String :=
  ["schema", "rootValue", "contextValue", "fieldResolver", "executeFn",
   "validationRules", "override"]

/-- C3 counterexample: an options object whose keys all lie inside the
claimed allowed set `{schema, rootValue, contextValue, fieldResolver,
executeFn, validationRules, override}` on which setup nevertheless fails —
the code's allow-list has no `executeFn` or `validationRules` — refuting the
claimed if-and-only-if. -/
theorem c3_counterexample :
    (∀ k ∈ objKeys c3Options, k ∈ claimedAllowedOptions) ∧
    executeSetup engineTrivial (.objArg c3Options) =
      .error ⟨500, "GraphQL execute middleware options invalid: `executeFn`.",
        false, none⟩ := by
  exact ⟨by decide, by rfl⟩

/-- C3 (amended): the allowed set is `{schema, rootValue, contextValue,
fieldResolver, override}`; whenever the options object carries keys outside
it, setup fails with the non-exposed configuration error naming exactly the
invalid keys (every offending key, no others, in order), and the key check
itself passes if and only if no such key exists. -/
theorem c3_invalid_option_keys_reported (engine : Engine) (o : OptionsObject) :
    (invalidKeys o ALLOWED_EXECUTE_OPTIONS ≠ [] →
      executeSetup engine (.objArg o) =
        .error (invalidOptionsError "GraphQL execute middleware"
          (invalidKeys o ALLOWED_EXECUTE_OPTIONS))) ∧
    (invalidOptionsError "GraphQL execute middleware"
      (invalidKeys o ALLOWED_EXECUTE_OPTIONS)).expose = false ∧
    (invalidOptionsError "GraphQL execute middleware"
      (invalidKeys o ALLOWED_EXECUTE_OPTIONS)).message =
      "GraphQL execute middleware" ++ " options invalid: `" ++
        String.intercalate "`, `" (invalidKeys o ALLOWED_EXECUTE_OPTIONS) ++ "`." ∧
    (checkOptions (.obj o) ALLOWED_EXECUTE_OPTIONS "GraphQL execute middleware" =
        .ok () ↔ invalidKeys o ALLOWED_EXECUTE_OPTIONS = []) := by
  refine ⟨?_, rfl, rfl, checkOptions_obj_ok_iff o _ _⟩
  intro h
  have hc : checkOptions (.obj o) ALLOWED_EXECUTE_OPTIONS
      "GraphQL execute middleware" =
      .error (invalidOptionsError "GraphQL execute middleware"
        (invalidKeys o ALLOWED_EXECUTE_OPTIONS)) := by
    simp only [checkOptions]
    rw [if_neg h]
  unfold executeSetup
  simp only [hc]
  rfl

theorem c3_witness :
    invalidKeys c3Options ALLOWED_EXECUTE_OPTIONS ≠ [] ∧
    executeSetup engineTrivial (.objArg c3Options) =
      .error (invalidOptionsError "GraphQL execute middleware"
        (invalidKeys c3Options ALLOWED_EXECUTE_OPTIONS)) := by
  have h := c3_invalid_option_keys_reported engineTrivial c3Options
  exact ⟨by decide, h.1 (by decide)⟩

/-- C5: for every request whose query text fails to parse, the request fails
with an exposed status-400 error whose message extends the parser's own
syntax-error message, and the override function is never invoked — parsing
happens before the override is resolved. -/
theorem c5_syntax_error_parsed_before_override (engine : Engine)
    (setup : SetupResult) (env : RequestEnv) (b : RequestBody) (m : String)
    (hbody : env.body = .obj b) (hq : b.queryPresent = true)
    (hparse : engine.parse b.query = .error m) :
    (executeMiddleware engine setup env).thrown =
      some (.http ⟨400, "GraphQL query syntax error: " ++ m, true, none⟩) ∧
    (executeMiddleware engine setup env).overrideInvoked = false ∧
    (∃ pre, "GraphQL query syntax error: " ++ m = pre ++ m) ∧
    (finalResponse engine setup env).status = 400 ∧
    ((finalResponse engine setup env).body.getD ⟨none, none⟩).errors =
      some [⟨"GraphQL query syntax error: " ++ m, none⟩] := by
  have hmid : executeMiddleware engine setup env =
      throwRun baseRun
        (createHttpError 400 ("GraphQL query syntax error: " ++ m) none) := by
    unfold executeMiddleware
    rw [hbody]
    simp only [hq, if_true, hparse]
  have hth : (executeMiddleware engine setup env).thrown =
      some (.http (createHttpError 400 ("GraphQL query syntax error: " ++ m) none)) := by
    rw [hmid]; rfl
  have hfin := finalResponse_of_thrown_exposed engine setup env _ hth (by rfl)
  rw [hmid] at hfin
  refine ⟨by rw [hmid]; rfl, by rw [hmid]; rfl,
    ⟨"GraphQL query syntax error: ", rfl⟩, by rw [hfin]; rfl, by rw [hfin]; rfl⟩

def setupOv : SetupResult := ⟨[("schema", .schemaInst 0)], .fnVal 3⟩

def engineSyntaxError : Engine :=
  ⟨fun _ => .error "Unexpected token", fun _ => [], fun _ _ => [],
   fun _ => .ok ⟨some (.objV 7), none⟩⟩

theorem c5_witness :
    (executeMiddleware engineSyntaxError setupOv envBasic).thrown =
      some (.http ⟨400, "GraphQL query syntax error: " ++ "Unexpected token",
        true, none⟩) ∧
    (executeMiddleware engineSyntaxError setupOv envBasic).overrideInvoked = false ∧
    (finalResponse engineSyntaxError setupOv envBasic).status = 400 := by
  have h := c5_syntax_error_parsed_before_override engineSyntaxError setupOv
    envBasic bodyBasic "Unexpected token" rfl rfl rfl
  exact ⟨h.1, h.2.1, h.2.2.2.1⟩

/-- C6: when a static override function exists and the request parses, (a) a
non-object override result fails the request with the non-exposed enumerable-
object configuration error; (b) an override result carrying any key outside
the allow-list minus `override` — in particular the key `override` itself —
fails the request with the non-exposed invalid-options error naming it, so the
override is never itself overridable; (c) an override result carrying a schema
has that schema validated immediately: an invalid one fails the request with
the schema-validation error before any merging or execution happens. -/
theorem c6_override_result_validated (engine : Engine) (setup : SetupResult)
    (env : RequestEnv) (b : RequestBody) (document : Nat) (f : Nat)
    (hbody : env.body = .obj b) (hq : b.queryPresent = true)
    (hparse : engine.parse b.query = .ok document)
    (hov : setup.override = .fnVal f) :
    (∀ v, env.overrideResult = .nonObj v →
      (executeMiddleware engine setup env).thrown =
        some (.http (enumerableObjectError overrideResolvedLabel)) ∧
      (enumerableObjectError overrideResolvedLabel).status = 500 ∧
      (enumerableObjectError overrideResolvedLabel).expose = false) ∧
    (∀ o k, env.overrideResult = .obj o → hasKey o k = true →
      (ALLOWED_EXECUTE_OPTIONS.filter (fun x => x != "override")).contains k = false →
      k ∈ invalidKeys o (ALLOWED_EXECUTE_OPTIONS.filter (fun x => x != "override")) ∧
      (executeMiddleware engine setup env).thrown =
        some (.http (invalidOptionsError overrideResolvedLabel
          (invalidKeys o (ALLOWED_EXECUTE_OPTIONS.filter (fun x => x != "override"))))) ∧
      (invalidOptionsError overrideResolvedLabel
        (invalidKeys o (ALLOWED_EXECUTE_OPTIONS.filter (fun x => x != "override")))).expose
        = false) ∧
    (∀ o s, env.overrideResult = .obj o →
      checkOptions (.obj o) (ALLOWED_EXECUTE_OPTIONS.filter (fun x => x != "override"))
        overrideResolvedLabel = .ok () →
      getOpt o "schema" = .schemaInst s →
      engine.validateSchema s ≠ [] →
      (executeMiddleware engine setup env).thrown =
        some (.http (createHttpError 500 "GraphQL schema validation errors."
          (some (engine.validateSchema s)))) ∧
      (executeMiddleware engine setup env).mergedOptions = none ∧
      (executeMiddleware engine setup env).execArgs = none) := by
  have hstage : executeMiddleware engine setup env =
      overrideStage engine setup env b document := by
    unfold executeMiddleware
    rw [hbody]
    simp only [hq, if_true, hparse]
  refine ⟨?_, ?_, ?_⟩
  · intro v hv
    refine ⟨?_, rfl, rfl⟩
    rw [hstage]
    unfold overrideStage
    simp only [hov, hv]
    rfl
  · intro o k ho hk hnotallowed
    have hmem : k ∈ invalidKeys o
        (ALLOWED_EXECUTE_OPTIONS.filter (fun x => x != "override")) := by
      unfold invalidKeys
      rw [List.mem_filter]
      constructor
      · obtain ⟨p, hp, hpk⟩ := List.any_eq_true.mp hk
        have hpe : p.1 = k := by simpa using hpk
        unfold objKeys
        exact hpe ▸ List.mem_map_of_mem Prod.fst hp
      · simp only [hnotallowed, Bool.not_false]
    have hinv : invalidKeys o
        (ALLOWED_EXECUTE_OPTIONS.filter (fun x => x != "override")) ≠ [] :=
      List.ne_nil_of_mem hmem
    have hcerr : checkOptions (.obj o)
        (ALLOWED_EXECUTE_OPTIONS.filter (fun x => x != "override"))
        overrideResolvedLabel =
        .error (invalidOptionsError overrideResolvedLabel
          (invalidKeys o (ALLOWED_EXECUTE_OPTIONS.filter (fun x => x != "override")))) := by
      simp only [checkOptions]
      rw [if_neg hinv]
    refine ⟨hmem, ?_, rfl⟩
    rw [hstage]
    unfold overrideStage
    simp only [hov, ho, hcerr]
    rfl
  · intro o s ho hchk hs hne
    have hcs : checkSchema engine (.schemaInst s) =
        .error (createHttpError 500 "GraphQL schema validation errors."
          (some (engine.validateSchema s))) := by
      simp only [checkSchema]
      rw [if_neg hne]
    have hmid : executeMiddleware engine setup env =
        throwRun (preRun document true)
          (createHttpError 500 "GraphQL schema validation errors."
            (some (engine.validateSchema s))) := by
      rw [hstage]
      unfold overrideStage
      simp only [hov, ho, hchk]
      rw [if_neg (by rw [hs]; exact fun hh => JsValue.noConfusion hh)]
      simp only [hs, hcs]
    exact ⟨by rw [hmid]; rfl, by rw [hmid]; rfl, by rw [hmid]; rfl⟩

def gErrSchema : GraphQLError := ⟨"schema problem", none⟩

def engineBadOverrideSchema : Engine :=
  ⟨fun _ => .ok 1, fun s => if s = 5 then [gErrSchema] else [], fun _ _ => [],
   fun _ => .ok ⟨some (.objV 7), none⟩⟩

def envOvBadSchema : RequestEnv :=
  ⟨.obj bodyBasic, .obj [("schema", .schemaInst 5)]⟩

theorem c6_witness :
    (executeMiddleware engineBadOverrideSchema setupOv envOvBadSchema).thrown =
      some (.http (createHttpError 500 "GraphQL schema validation errors."
        (some [gErrSchema]))) ∧
    (executeMiddleware engineBadOverrideSchema setupOv envOvBadSchema).mergedOptions
      = none ∧
    (executeMiddleware engineBadOverrideSchema setupOv envOvBadSchema).execArgs
      = none := by
  have h := (c6_override_result_validated engineBadOverrideSchema setupOv
    envOvBadSchema bodyBasic 1 3 rfl rfl rfl rfl).2.2
    [("schema", .schemaInst 5)] 5 rfl rfl rfl (by decide)
  exact h

/-- C7: for every request where, after merging static options with the
override's result, no schema is defined, the request fails with the
non-exposed `GraphQL schema is required.` configuration error before any
document validation or execution is attempted, and the client sees the
generic 500 response. -/
theorem c7_missing_schema_fails_before_validation (engine : Engine)
    (setup : SetupResult) (env : RequestEnv) (b : RequestBody) (document : Nat)
    (ov : OptionsObject) (inv : Bool)
    (hreach : reachesMerge engine setup env b document ov inv)
    (hschema : getOpt (spreadMerge setup.staticOptions ov) "schema" = JsValue.undefinedV) :
    (executeMiddleware engine setup env).thrown =
      some (.http ⟨500, "GraphQL schema is required.", false, none⟩) ∧
    (executeMiddleware engine setup env).validationErrors = none ∧
    (executeMiddleware engine setup env).execArgs = none ∧
    (finalResponse engine setup env).status = 500 ∧
    ((finalResponse engine setup env).body.getD ⟨none, none⟩).errors =
      some [⟨"Internal Server Error", none⟩] := by
  have hmid : executeMiddleware engine setup env =
      throwRun
        { preRun document inv with
            mergedOptions := some (spreadMerge setup.staticOptions ov) }
        (createHttpError 500 "GraphQL schema is required." none) := by
    rw [run_reaches_merge engine setup env b document ov inv hreach]
    unfold mergeStage
    rw [if_pos hschema]
  have hth : (executeMiddleware engine setup env).thrown =
      some (.http (createHttpError 500 "GraphQL schema is required." none)) := by
    rw [hmid]; rfl
  have hfin := finalResponse_of_thrown_unexposed engine setup env _ hth (by rfl)
  rw [hmid] at hfin
  exact ⟨by rw [hmid]; rfl, by rw [hmid]; rfl, by rw [hmid]; rfl,
    by rw [hfin], by rw [hfin]; rfl⟩

def setupNoSchema : SetupResult := ⟨[], .undefinedV⟩

theorem c7_witness :
    (executeMiddleware engineTrivial setupNoSchema envBasic).thrown =
      some (.http ⟨500, "GraphQL schema is required.", false, none⟩) ∧
    (executeMiddleware engineTrivial setupNoSchema envBasic).validationErrors
      = none ∧
    (executeMiddleware engineTrivial setupNoSchema envBasic).execArgs = none ∧
    (finalResponse engineTrivial setupNoSchema envBasic).status = 500 := by
  have h := c7_missing_schema_fails_before_validation engineTrivial setupNoSchema
    envBasic bodyBasic 1 [] false ⟨rfl, rfl, rfl, Or.inl ⟨rfl, rfl, rfl⟩⟩ rfl
  exact ⟨h.1, h.2.1, h.2.2.1, h.2.2.2.1⟩

theorem hasKey_filter_false (o : OptionsObject) (q : String × JsValue → Bool)
    (k : String) (h : hasKey o k = false) : hasKey (o.filter q) k = false := by
  unfold hasKey at h ⊢
  rw [List.any_eq_false] at h ⊢
  intro x hx
  exact h x (List.mem_of_mem_filter hx)

theorem mergeStage_execArgs_cases (engine : Engine) (setup : SetupResult)
    (b : RequestBody) (document : Nat) (r : RunResult) (ov : OptionsObject)
    (hr : r.execArgs = none) :
    (mergeStage engine setup b document r ov).execArgs = none ∨
    (mergeStage engine setup b document r ov).execArgs =
      some (mkExecArgs (spreadMerge setup.staticOptions ov) b document) := by
  unfold mergeStage
  by_cases hs : getOpt (spreadMerge setup.staticOptions ov) "schema" = JsValue.undefinedV
  · left
    rw [if_pos hs]
    simp [throwRun, hr]
  · rw [if_neg hs]
    by_cases hv : engine.validate
        (getOpt (spreadMerge setup.staticOptions ov) "schema") document = []
    · right
      simp only [hv, if_true]
      cases he : engine.exec (mkExecArgs (spreadMerge setup.staticOptions ov) b document) with
      | error m => simp only [he, throwRun]
      | ok res =>
        simp only [he]
        cases hd : res.data with
        | none =>
          simp only [hd]
          cases hes : res.errors with
          | none => simp only [hes]
          | some es => simp only [hes, throwRun]
        | some dv =>
          cases dv with
          | nullV =>
            simp only [hd]
            cases hes : res.errors with
            | none => simp only [hes]
            | some es => simp only [hes, throwRun]
          | objV d =>
            simp only [hd]
            cases hes : res.errors with
            | none => simp only [hes]
            | some es => simp only [hes, throwRun]
    · left
      rw [if_neg hv]
      simp [throwRun, hr]

theorem executeSetup_ok_inversion (engine : Engine) (opts : OptionsObject)
    (setup : SetupResult)
    (h : executeSetup engine (.objArg opts) = .ok setup) :
    invalidKeys opts ALLOWED_EXECUTE_OPTIONS = [] ∧
    setup.staticOptions = opts.filter (fun p => p.1 != "override") := by
  simp only [executeSetup] at h
  cases hc : checkOptions (.obj opts) ALLOWED_EXECUTE_OPTIONS
      "GraphQL execute middleware" with
  | error e =>
    rw [hc] at h
    simp [Bind.bind, Except.bind] at h
  | ok u =>
    cases u
    refine ⟨(checkOptions_obj_ok_iff opts _ _).mp hc, ?_⟩
    rw [hc] at h
    simp only [Bind.bind, Except.bind] at h
    by_cases hs : getOpt opts "schema" = JsValue.undefinedV
    · rw [if_neg (not_not_intro hs)] at h
      simp only [Pure.pure, Except.pure] at h
      cases ho : getOpt opts "override" with
      | undefinedV =>
        simp only [ho] at h
        cases h
        rfl
      | fnVal f =>
        simp only [ho] at h
        cases h
        rfl
      | schemaInst s =>
        simp only [ho] at h
        cases h
      | plain v =>
        simp only [ho] at h
        cases h
    · rw [if_pos hs] at h
      cases hcs : checkSchema engine (getOpt opts "schema") with
      | error e =>
        rw [hcs] at h
        simp [Bind.bind, Except.bind] at h
      | ok u2 =>
        cases u2
        rw [hcs] at h
        simp only [Bind.bind, Except.bind] at h
        cases ho : getOpt opts "override" with
        | undefinedV =>
          simp only [ho] at h
          cases h
          rfl
        | fnVal f =>
          simp only [ho] at h
          cases h
          rfl
        | schemaInst s =>
          simp only [ho] at h
          cases h
        | plain v =>
          simp only [ho] at h
          cases h

/-- C8: for every request that reaches the execution step, the document is
executed by the default execution primitive with exactly the effective
merged options' schema, rootValue, contextValue and fieldResolver, the parsed
document, the body's variables as variableValues and the body's
operationName — and the merged options never carry an `executeFn` key (the
allow-lists exclude it), so the default primitive is always the one used. -/
theorem c8_execution_uses_merged_options (engine : Engine)
    (setup : SetupResult) (env : RequestEnv) (opts : OptionsObject)
    (b : RequestBody) (document : Nat) (ov : OptionsObject) (inv : Bool)
    (a : ExecArgs)
    (hsetup : executeSetup engine (.objArg opts) = .ok setup)
    (hreach : reachesMerge engine setup env b document ov inv)
    (hargs : (executeMiddleware engine setup env).execArgs = some a) :
    a = mkExecArgs (spreadMerge setup.staticOptions ov) b document ∧
    a.schema = getOpt (spreadMerge setup.staticOptions ov) "schema" ∧
    a.rootValue = getOpt (spreadMerge setup.staticOptions ov) "rootValue" ∧
    a.contextValue = getOpt (spreadMerge setup.staticOptions ov) "contextValue" ∧
    a.fieldResolver = getOpt (spreadMerge setup.staticOptions ov) "fieldResolver" ∧
    a.document = document ∧
    a.variableValues = b.bodyVariables ∧
    a.operationName = b.operationName ∧
    hasKey (spreadMerge setup.staticOptions ov) "executeFn" = false := by
  rw [run_reaches_merge engine setup env b document ov inv hreach] at hargs
  rcases mergeStage_execArgs_cases engine setup b document (preRun document inv)
      ov rfl with hc | hc
  · rw [hc] at hargs
    cases hargs
  · rw [hc] at hargs
    have ha : a = mkExecArgs (spreadMerge setup.staticOptions ov) b document :=
      (Option.some.inj hargs).symm
    subst ha
    obtain ⟨hinv, hstat⟩ := executeSetup_ok_inversion engine opts setup hsetup
    have hstatic : hasKey setup.staticOptions "executeFn" = false := by
      rw [hstat]
      exact hasKey_filter_false opts _ _
        (hasKey_false_of_invalid_nil opts ALLOWED_EXECUTE_OPTIONS "executeFn"
          hinv (by decide))
    have hovkey : hasKey ov "executeFn" = false := by
      obtain ⟨_, _, _, hone | ⟨_, _, _, hchk, _⟩⟩ := hreach
      · rw [hone.2.1]
        rfl
      · exact hasKey_false_of_invalid_nil ov _ "executeFn"
          ((checkOptions_obj_ok_iff ov _ _).mp hchk) (by decide)
    exact ⟨rfl, rfl, rfl, rfl, rfl, rfl, rfl, rfl,
      hasKey_spreadMerge_false _ _ _ hstatic hovkey⟩

theorem c8_witness :
    (executeMiddleware engineTrivial setupBasic envBasic).execArgs =
      some (mkExecArgs (spreadMerge setupBasic.staticOptions []) bodyBasic 1) ∧
    (mkExecArgs (spreadMerge setupBasic.staticOptions []) bodyBasic 1).schema =
      getOpt (spreadMerge setupBasic.staticOptions []) "schema" ∧
    (mkExecArgs (spreadMerge setupBasic.staticOptions []) bodyBasic 1).operationName =
      bodyBasic.operationName ∧
    hasKey (spreadMerge setupBasic.staticOptions []) "executeFn" = false := by
  have h := c8_execution_uses_merged_options engineTrivial setupBasic envBasic
    [("schema", .schemaInst 0)] bodyBasic 1 [] false
    (mkExecArgs (spreadMerge setupBasic.staticOptions []) bodyBasic 1)
    rfl ⟨rfl, rfl, rfl, Or.inl ⟨rfl, rfl, rfl⟩⟩ rfl
  exact ⟨rfl, h.2.1, h.2.2.2.2.2.2.2.1, h.2.2.2.2.2.2.2.2⟩

def gErrResolver : GraphQLError := ⟨"resolver failed", none⟩

def engineNullData : Engine :=
  ⟨fun _ => .ok 1, fun _ => [], fun _ _ => [],
   fun _ => .ok ⟨some .nullV, some [gErrResolver]⟩⟩

/-- C9 counterexample: an execution result that carries a `data` field whose
value is `null` (together with resolver errors).  The middleware's
`if (result.data)` truthiness test skips it, so no `{ data }` body is written
and the final response body has no data field — refuting the claim for
results that carry a falsy `data` field. -/
theorem c9_counterexample :
    (executeMiddleware engineNullData setupBasic envBasic).execResult =
      some ⟨some .nullV, some [gErrResolver]⟩ ∧
    (executeMiddleware engineNullData setupBasic envBasic).resp.body = none ∧
    ((finalResponse engineNullData setupBasic envBasic).body.getD
        ⟨none, none⟩).data = none := by
  exact ⟨rfl, rfl, rfl⟩

/-- C9 (amended): for every request whose execution result carries a truthy
(non-null, object) `data` field, the middleware writes `{ data }` as the
response body and the data survives into the final body; in particular when
the result carries no errors field, the response is status 200 with a body
holding only `data`, nothing is thrown, and the chain continues. -/
theorem c9_truthy_data_written (engine : Engine) (setup : SetupResult)
    (env : RequestEnv) (b : RequestBody) (document : Nat) (ov : OptionsObject)
    (inv : Bool) (r : ExecResult) (d : Nat)
    (hreach : reachesMerge engine setup env b document ov inv)
    (hschema : getOpt (spreadMerge setup.staticOptions ov) "schema" ≠ JsValue.undefinedV)
    (hvalid : engine.validate (getOpt (spreadMerge setup.staticOptions ov) "schema")
      document = [])
    (hexec : engine.exec (mkExecArgs (spreadMerge setup.staticOptions ov) b document)
      = .ok r)
    (hdata : r.data = some (.objV d)) :
    (executeMiddleware engine setup env).resp.body =
      some ⟨some (.objV d), none⟩ ∧
    ((finalResponse engine setup env).body.getD ⟨none, none⟩).data =
      some (.objV d) ∧
    (r.errors = none →
      finalResponse engine setup env = ⟨200, some ⟨some (.objV d), none⟩⟩ ∧
      (executeMiddleware engine setup env).thrown = none ∧
      (executeMiddleware engine setup env).nextCalled = true) := by
  have hrun := run_reaches_merge engine setup env b document ov inv hreach
  cases hes : r.errors with
  | none =>
    have hmid : executeMiddleware engine setup env =
        { preRun document inv with
            resp := ⟨200, some ⟨some (.objV d), none⟩⟩,
            mergedOptions := some (spreadMerge setup.staticOptions ov),
            validationErrors := some [],
            execArgs := some (mkExecArgs (spreadMerge setup.staticOptions ov) b document),
            execResult := some r,
            nextCalled := true } := by
      rw [hrun]
      unfold mergeStage
      rw [if_neg hschema]
      simp only [hvalid, if_true, hexec, hdata, hes]
    have hfin : finalResponse engine setup env =
        ⟨200, some ⟨some (.objV d), none⟩⟩ := by
      show errorHandler (executeMiddleware engine setup env).resp
        (executeMiddleware engine setup env).thrown = _
      rw [hmid]
      rfl
    refine ⟨by rw [hmid], by rw [hfin]; rfl, ?_⟩
    intro _
    exact ⟨hfin, by rw [hmid]; try rfl, by rw [hmid]; try rfl⟩
  | some es =>
    have hmid : executeMiddleware engine setup env =
        throwRun
          { preRun document inv with
              resp := { initialResponse with body := some ⟨some (.objV d), none⟩ },
              mergedOptions := some (spreadMerge setup.staticOptions ov),
              validationErrors := some [],
              execArgs := some (mkExecArgs (spreadMerge setup.staticOptions ov) b document),
              execResult := some r }
          (createHttpError 200 "GraphQL errors." (some es)) := by
      rw [hrun]
      unfold mergeStage
      rw [if_neg hschema]
      simp only [hvalid, if_true, hexec, hdata, hes]
      rfl
    have hth : (executeMiddleware engine setup env).thrown =
        some (.http (createHttpError 200 "GraphQL errors." (some es))) := by
      rw [hmid]; rfl
    have hfin := finalResponse_of_thrown_exposed engine setup env _ hth (by rfl)
    rw [hmid] at hfin
    refine ⟨by rw [hmid]; rfl, by rw [hfin]; rfl, ?_⟩
    intro hcontra
    cases hcontra

theorem c9_witness :
    (executeMiddleware engineTrivial setupBasic envBasic).resp.body =
      some ⟨some (.objV 7), none⟩ ∧
    finalResponse engineTrivial setupBasic envBasic =
      ⟨200, some ⟨some (.objV 7), none⟩⟩ ∧
    (executeMiddleware engineTrivial setupBasic envBasic).thrown = none := by
  have h := c9_truthy_data_written engineTrivial setupBasic envBasic bodyBasic 1
    [] false ⟨some (.objV 7), none⟩ 7
    ⟨rfl, rfl, rfl, Or.inl ⟨rfl, rfl, rfl⟩⟩ (by decide) rfl rfl rfl
  exact ⟨h.1, (h.2.2 rfl).1, (h.2.2 rfl).2.1⟩

/-- C10: an override result that carries the key `schema` with the value
`undefined` makes the merged effective options take `undefined` for `schema`
(object-spread treats an explicitly-undefined key as defined), discarding the
static schema — so the request fails with the non-exposed `GraphQL schema is
required.` configuration error even when the static options define a valid
schema, and the client sees the generic 500 response. -/
theorem c10_override_undefined_key_wins (engine : Engine) (setup : SetupResult)
    (env : RequestEnv) (b : RequestBody) (document : Nat) (o : OptionsObject)
    (s : Nat)
    (hreach : reachesMerge engine setup env b document o true)
    (hstatic : getOpt setup.staticOptions "schema" = .schemaInst s)
    (hk : hasKey o "schema" = true) (hv : getOpt o "schema" = JsValue.undefinedV) :
    getOpt (spreadMerge setup.staticOptions o) "schema" = JsValue.undefinedV ∧
    (executeMiddleware engine setup env).thrown =
      some (.http ⟨500, "GraphQL schema is required.", false, none⟩) ∧
    (finalResponse engine setup env).status = 500 ∧
    ((finalResponse engine setup env).body.getD ⟨none, none⟩).errors =
      some [⟨"Internal Server Error", none⟩] := by
  have hm : getOpt (spreadMerge setup.staticOptions o) "schema" = JsValue.undefinedV := by
    rw [getOpt_spreadMerge_of_hasKey _ _ _ hk, hv]
  have hmid : executeMiddleware engine setup env =
      throwRun
        { preRun document true with
            mergedOptions := some (spreadMerge setup.staticOptions o) }
        (createHttpError 500 "GraphQL schema is required." none) := by
    rw [run_reaches_merge engine setup env b document o true hreach]
    unfold mergeStage
    rw [if_pos hm]
  have hth : (executeMiddleware engine setup env).thrown =
      some (.http (createHttpError 500 "GraphQL schema is required." none)) := by
    rw [hmid]; rfl
  have hfin := finalResponse_of_thrown_unexposed engine setup env _ hth (by rfl)
  rw [hmid] at hfin
  exact ⟨hm, by rw [hmid]; rfl, by rw [hfin], by rw [hfin]; rfl⟩

def envOvUndefSchema : RequestEnv := ⟨.obj bodyBasic, .obj [("schema", .undefinedV)]⟩

theorem c10_witness :
    getOpt setupOv.staticOptions "schema" = .schemaInst 0 ∧
    getOpt (spreadMerge setupOv.staticOptions [("schema", .undefinedV)]) "schema" =
      JsValue.undefinedV ∧
    (executeMiddleware engineTrivial setupOv envOvUndefSchema).thrown =
      some (.http ⟨500, "GraphQL schema is required.", false, none⟩) ∧
    (finalResponse engineTrivial setupOv envOvUndefSchema).status = 500 := by
  have h := c10_override_undefined_key_wins engineTrivial setupOv
    envOvUndefSchema bodyBasic 1 [("schema", .undefinedV)] 0
    ⟨rfl, rfl, rfl, Or.inr ⟨rfl, rfl, rfl, rfl, Or.inl rfl⟩⟩ rfl rfl rfl
  exact ⟨rfl, h.1, h.2.1, h.2.2.1⟩
